import Mathlib

/-!
Verification of the traefik-oidc-auth middleware core against its
natural-language specification.

The Go sources are shallowly embedded: pure helper functions from
src/utils/utils.go become Lean functions over byte sequences
(a Go string is a sequence of bytes, modelled as a list of naturals
below 256); the request-handling orchestrator and the token validator
become functions over an explicit oracle record standing for the
network and library calls they make, returning the ordered list of
observable effects.  External libraries (Go crypto/cipher AES-GCM,
encoding/base64) are modelled by executable functions satisfying the
contracts the source relies on; repository code that is not among the
provided sources (the session store, the oidc state codec, the error
pages) is modelled from the specification and marked as such in the
corresponding doc comment.
-/

namespace OidcAuth

/-- Result of a Go function call: a value, a returned error, or a
runtime panic (for example a slice-bounds violation). -/
inductive GoResult (α : Type) where
  | ok (val : α)
  | err (msg : String)
  | panicked
deriving DecidableEq, Repr

/-- Byte codes of the standard base64 alphabet
A..Z a..z 0..9 + / (Go encoding/base64 StdEncoding). -/
def base64Alphabet : List Nat :=
  [65, 66, 67, 68, 69, 70, 71, 72, 73, 74, 75, 76, 77, 78, 79, 80,
   81, 82, 83, 84, 85, 86, 87, 88, 89, 90,
   97, 98, 99, 100, 101, 102, 103, 104, 105, 106, 107, 108, 109, 110,
   111, 112, 113, 114, 115, 116, 117, 118, 119, 120, 121, 122,
   48, 49, 50, 51, 52, 53, 54, 55, 56, 57, 43, 47]

/-- Byte code of the base64 digit for a 6-bit value. -/
def b64chr (v : Nat) : Nat := base64Alphabet.getD v 65

/-- Index search in a list of byte codes, used to invert the alphabet. -/
def idxFrom : List Nat → Nat → Nat → Option Nat
  | [], _, _ => none
  | a :: as, c, i => if a = c then some i else idxFrom as c (i + 1)

/-- Six-bit value of a base64 digit byte, none when the byte is not in
the alphabet. -/
def b64idx (c : Nat) : Option Nat := idxFrom base64Alphabet c 0

/-- Base64 standard encoding of a byte sequence, producing the byte
codes of the encoded characters; 61 is the pad character.  Models Go
base64.StdEncoding.EncodeToString. -/
def b64encode : List Nat → List Nat
  | [] => []
  | [a] => [b64chr (a / 4), b64chr (a % 4 * 16), 61, 61]
  | [a, b] => [b64chr (a / 4), b64chr (a % 4 * 16 + b / 16), b64chr (b % 16 * 4), 61]
  | a :: b :: c :: rest =>
      b64chr (a / 4) :: b64chr (a % 4 * 16 + b / 16) ::
      b64chr (b % 16 * 4 + c / 64) :: b64chr (c % 64) :: b64encode rest

/-- Base64 standard decoding over byte codes; fails on input whose
length is not a multiple of four, on bytes outside the alphabet, and on
misplaced padding, as Go base64.StdEncoding.DecodeString does. -/
def b64decode : List Nat → Option (List Nat)
  | [] => some []
  | c1 :: c2 :: c3 :: c4 :: rest =>
      match b64idx c1, b64idx c2 with
      | some a, some b =>
          if c3 = 61 then
            if c4 = 61 ∧ rest = [] then some [a * 4 + b / 16] else none
          else
            match b64idx c3 with
            | some c =>
                if c4 = 61 then
                  if rest = [] then some [a * 4 + b / 16, b % 16 * 16 + c / 4] else none
                else
                  match b64idx c4 with
                  | some d =>
                      match b64decode rest with
                      | some bs => some ((a * 4 + b / 16) :: (b % 16 * 16 + c / 4) :: (c % 4 * 64 + d) :: bs)
                      | none => none
                  | none => none
            | none => none
      | _, _ => none
  | _ => none

/-- Keystream byte of the AEAD model for a given position.  The Go code
uses crypto/cipher AES-GCM through its interface only; the concrete
keystream is an arbitrary executable function of key, nonce and
position, reduced below 256 like every byte. -/
def ksByte (key nonce : List Nat) (i : Nat) : Nat :=
  (key.sum * 7 + nonce.sum * 13 + i * 31 + 5) % 256

/-- XOR-mask a byte sequence with a keystream, starting at position i.
Applying it twice restores the input, as for any stream cipher. -/
def maskBytes (ks : Nat → Nat) : Nat → List Nat → List Nat
  | _, [] => []
  | i, b :: bs => (b ^^^ ks i) :: maskBytes ks (i + 1) bs

/-- Sixteen-byte authentication tag of the AEAD model, a function of
key, nonce and ciphertext body (GCM tag size is 16). -/
def gcmTag (key nonce body : List Nat) : List Nat :=
  (List.range 16).map fun i =>
    (key.sum * 3 + nonce.sum * 5 + body.sum * 7 + i * 11 + 1) % 256

/-- Model of Go cipher.AEAD Seal with empty destination: the masked
plaintext followed by the 16-byte tag. -/
def gcmSeal (key nonce pt : List Nat) : List Nat :=
  maskBytes (ksByte key nonce) 0 pt ++ gcmTag key nonce (maskBytes (ksByte key nonce) 0 pt)

/-- Model of Go cipher.AEAD Open: check the minimal length and the tag,
then unmask; none models the returned error. -/
def gcmOpen (key nonce ct : List Nat) : Option (List Nat) :=
  if ct.length < 16 then none
  else
    if ct.drop (ct.length - 16) = gcmTag key nonce (ct.take (ct.length - 16)) then
      some (maskBytes (ksByte key nonce) 0 (ct.take (ct.length - 16)))
    else none

/-- AES key sizes accepted by Go aes.NewCipher; any other length yields
a KeySizeError. -/
def validAesKeySize (n : Nat) : Bool := n = 16 || n = 24 || n = 32

/-- GCM nonce size used by cipher.NewGCM. -/
def gcmNonceSize : Nat := 12

/-- Embedding of utils.Encrypt (src/utils/utils.go lines 157-182).  The
random 12-byte nonce drawn by rand.Read is passed as an argument; the
function builds aes.NewCipher and the GCM, seals nonce plus plaintext
into nonce-prefixed ciphertext and base64-encodes it. -/
def Encrypt (plaintext secret nonce : List Nat) : GoResult (List Nat) :=
  if validAesKeySize secret.length then
    GoResult.ok (b64encode (nonce ++ gcmSeal secret nonce plaintext))
  else GoResult.err "crypto/aes: invalid key size"

/-- Embedding of utils.Decrypt (src/utils/utils.go lines 184-217):
reject the empty string, base64-decode, build the cipher, split off the
nonce and open.  The source slices ciphertext[:nonceSize] without a
length check, so a decoded value shorter than the nonce size is a Go
runtime panic, modelled by the panicked result. -/
def Decrypt (ciphertext secret : List Nat) : GoResult (List Nat) :=
  if ciphertext = [] then GoResult.err "ciphertext must not be an empty string"
  else
    match b64decode ciphertext with
    | none => GoResult.err "illegal base64 data"
    | some bytes =>
        if validAesKeySize secret.length then
          if bytes.length < gcmNonceSize then GoResult.panicked
          else
            match gcmOpen secret (bytes.take gcmNonceSize) (bytes.drop gcmNonceSize) with
            | none => GoResult.err "cipher: message authentication failed"
            | some pt => GoResult.ok pt
        else GoResult.err "crypto/aes: invalid key size"

/-- Embedding of utils.ChunkString (src/utils/utils.go lines 219-231):
the loop takes chunkSize bytes at a time.  For a zero chunk size the Go
loop never advances; that unreachable case (the spec requires a
positive size) is cut off to keep the function total. -/
def ChunkString (input : List Nat) (chunkSize : Nat) : List (List Nat) :=
  if input = [] then []
  else if chunkSize = 0 then []
  else input.take chunkSize :: ChunkString (input.drop chunkSize) chunkSize
termination_by input.length
decreasing_by
  simp only [List.length_drop]
  rename_i h1 h2
  have hlen : 0 < input.length := List.length_pos.mpr h1
  omega

/-- Characters matched by the wildcard class [a-zA-Z0-9-_] that
matchUriTemplate substitutes for a star. -/
def isWordChar (c : Char) : Bool :=
  (97 ≤ c.toNat && c.toNat ≤ 122) || (65 ≤ c.toNat && c.toNat ≤ 90) ||
  (48 ≤ c.toNat && c.toNat ≤ 57) || c = '-' || c = '_'

/-- Anchored matching of a value against a template where a star stands
for one nonempty run of word characters and every other character is
literal.  This is the language of the regular expression the source
builds in matchUriTemplate (src/utils/utils.go lines 260-272): the
template is passed through regexp.QuoteMeta, so every character except
star becomes a literal, each star becomes the class [a-zA-Z0-9-_]+ and
the whole expression is anchored with a leading caret and a trailing
dollar.  At a star the matcher consumes one word character and then
either closes the wildcard or keeps consuming. -/
def matchTpl : List Char → List Char → Bool
  | [], vs => vs.isEmpty
  | _ :: _, [] => false
  | t :: ts, v :: vs =>
      if t = '*' then isWordChar v && (matchTpl ts vs || matchTpl (t :: ts) vs)
      else t = v && matchTpl ts vs

/-- Embedding of utils.matchUriTemplate (src/utils/utils.go lines
249-273): exact match, the universal wildcard, or the anchored
wildcard-segment regular expression. -/
def matchUriTemplate (value template : String) : Bool :=
  value = template || template = "*" || matchTpl template.toList value.toList

/-- Embedding of utils.ValidateRedirectUri (src/utils/utils.go lines
233-247).  A nil slice and an empty slice behave identically in the
source guard, so the allow-list is a plain list. -/
def ValidateRedirectUri (redirectUri : String) (validUris : List String) :
    Except String String :=
  if redirectUri = "" then Except.ok ""
  else if validUris.any fun t => matchUriTemplate redirectUri t then Except.ok redirectUri
  else Except.error "invalid redirect uri"

/-- Specification-side wildcard matching relation, written from the
words of the claim: the value decomposes against the template so that
every character other than star matches itself and every star stands
for exactly one nonempty segment of characters from [a-zA-Z0-9-_]. -/
inductive SpecMatch : List Char → List Char → Prop where
  | nil : SpecMatch [] []
  | lit {c : Char} {ts vs : List Char} : c ≠ '*' → SpecMatch ts vs →
      SpecMatch (c :: ts) (c :: vs)
  | star {ts vs : List Char} (w : List Char) : w ≠ [] →
      (∀ c ∈ w, isWordChar c = true) → SpecMatch ts vs →
      SpecMatch ('*' :: ts) (w ++ vs)

/-- ASCII lowercase of a character, the fragment of strings.ToLower
exercised by header values. -/
def lowerChar (c : Char) : Char :=
  if 65 ≤ c.toNat ∧ c.toNat ≤ 90 then Char.ofNat (c.toNat + 32) else c

/-- ASCII lowercase of a string (strings.ToLower on ASCII input). -/
def toLowerAscii (s : String) : String := String.mk (s.toList.map lowerChar)

/-- List-level check that the first list starts the second. -/
def startsList : List Char → List Char → Bool
  | [], _ => true
  | _ :: _, [] => false
  | a :: as, b :: bs => a = b && startsList as bs

/-- List-level substring containment. -/
def infixList : List Char → List Char → Bool
  | needle, hay =>
      startsList needle hay ||
      match hay with
      | [] => false
      | _ :: t => infixList needle t

/-- Model of strings.Contains. -/
def containsStr (s substr : String) : Bool := infixList substr.toList s.toList

/-- Model of strings.HasPrefix. -/
def strHasPfx (p s : String) : Bool := startsList p.toList s.toList

/-- Model of strings.EqualFold restricted to ASCII, which covers the
header names compared in the source. -/
def eqFold (a b : String) : Bool := toLowerAscii a = toLowerAscii b

/-- Loop body of the configured branch of IsXHRRequestWithHeaders for
one configured header entry: skip an absent header, skip the Accept
header when its value also requests text/html, otherwise look for any
configured value as a case-insensitive substring. -/
def detectEntry (get : String → String) (entry : String × List String) : Bool :=
  if get entry.1 = "" then false
  else if eqFold entry.1 "Accept" && containsStr (get entry.1) "text/html" then false
  else entry.2.any fun v => containsStr (toLowerAscii (get entry.1)) (toLowerAscii v)

/-- Legacy branch of IsXHRRequestWithHeaders (nil or empty header
configuration): X-Requested-With equal to XMLHttpRequest, else an
Accept containing application/json but not text/html. -/
def legacyXHR (get : String → String) : Bool :=
  if get "X-Requested-With" = "XMLHttpRequest" then true
  else
    if containsStr (get "Accept") "application/json" then
      if containsStr (get "Accept") "text/html" then false else true
    else false

/-- Embedding of utils.IsXHRRequestWithHeaders (src/utils/utils.go
lines 282-327).  A request is its header-lookup function (the Get of a
canonicalised Go header map).  A nil map and an empty map select the
legacy branch; otherwise the Go range loop returns true as soon as some
entry matches, which is order-independent, so it is an any over the
entries. -/
def IsXHRRequestWithHeaders (get : String → String)
    (headers : Option (List (String × List String))) : Bool :=
  match headers with
  | none => legacyXHR get
  | some [] => legacyXHR get
  | some hs => hs.any (detectEntry get)

/-- The default JavaScriptRequestDetection header set built by
CreateConfig (src/metrics/prometheus.go lines 292-298): exactly the
entries X-Requested-With with XMLHttpRequest, Sec-Fetch-Mode with cors
and same-origin, and Content-Type with application/json; there is no
Accept entry.  The configuration test asserts the same three
entries. -/
def defaultJsDetectionHeaders : List (String × List String) :=
  [("X-Requested-With", ["XMLHttpRequest"]),
   ("Sec-Fetch-Mode", ["cors", "same-origin"]),
   ("Content-Type", ["application/json"])]

/-- Request headers holding only Accept: application/json, used to
probe the classifier. -/
def acceptJsonOnly : String → String :=
  fun n => if n = "Accept" then "application/json" else ""

/-- Claims map of a parsed token, kept opaque as an association list. -/
def Claims : Type := List (String × String)

/-- Outcome of one jwt parser.ParseWithClaims call as the validator
observes it: the claims, or an error carrying whether it is the
expiration error (errors.Is with jwt.ErrTokenExpired, or the literal
expired-claims message the source also compares against). -/
structure ParseErr where
  isExpired : Bool
  msg : String
deriving DecidableEq, Repr

/-- Classification the validator applies to a final parse failure. -/
inductive TokenClass where
  | expired
  | invalid
deriving DecidableEq, Repr

/-- Error returned by the local validation: a JWKS load error or the
final parse error. -/
inductive ValidationErr where
  | loadErr (msg : String)
  | parseErr (e : ParseErr)
deriving DecidableEq, Repr

/-- Oracle for the effectful calls validateTokenLocallyWithContext
makes: the result of the non-forced JWKS EnsureLoaded, of the forced
EnsureLoaded, and of the first and second ParseWithClaims attempt (the
second may differ from the first because the key set was reloaded in
between). -/
structure JwtOracle where
  loadResult : Except String Unit
  forceLoadResult : Except String Unit
  parse1 : Except ParseErr Claims
  parse2 : Except ParseErr Claims

/-- Observable trace of one validation call: the EnsureLoaded calls in
order with their force flag, the number of parse attempts, the result,
and the classification branch taken on a final parse failure. -/
structure ValidationRun where
  loadCalls : List Bool
  parseAttempts : Nat
  result : Except ValidationErr Claims
  classification : Option TokenClass

/-- Embedding of validateTokenLocallyWithContext (the token validator,
lines 362-471 of its source file).  The tracing and non-tracing
branches run the same load, parse, forced reload and retry sequence;
the embedding follows the span-free branch.  Claims on success mirror
the returned (true, claims). -/
def validateTokenLocally (o : JwtOracle) : ValidationRun :=
  match o.loadResult with
  | Except.error e => ⟨[false], 0, Except.error (ValidationErr.loadErr e), none⟩
  | Except.ok _ =>
    match o.parse1 with
    | Except.ok claims => ⟨[false], 1, Except.ok claims, none⟩
    | Except.error _ =>
      match o.forceLoadResult with
      | Except.error e => ⟨[false, true], 1, Except.error (ValidationErr.loadErr e), none⟩
      | Except.ok _ =>
        match o.parse2 with
        | Except.ok claims => ⟨[false, true], 2, Except.ok claims, none⟩
        | Except.error e2 =>
            ⟨[false, true], 2, Except.error (ValidationErr.parseErr e2),
             some (if e2.isExpired then TokenClass.expired else TokenClass.invalid)⟩

/-- Decoded OAuth2 state parameter: action and redirect target.
Modelled from the spec: the oidc state codec (base64 of JSON with
Action and RedirectUrl) is not among the provided sources. -/
structure OidcStateM where
  action : String
  redirectUrl : String
deriving DecidableEq, Repr

/-- Token response of the code exchange. -/
structure TokenResponseM where
  accessToken : String
  idToken : String
  refreshToken : String
deriving DecidableEq, Repr

/-- Observable effects of the callback handler, in program order.
Cookie writes and responses are modelled from the spec where their
implementations (session store, error pages) are not among the
provided sources: storeSessionCookie is storeSessionAndAttachCookie
recording the IsAuthorized flag of the stored session,
clearVerifierCookie is the expiring Set-Cookie for the PKCE verifier,
respond403 is handleUnauthorized writing the forbidden error page. -/
inductive CbEffect where
  | exchangeCalled
  | validateCalled
  | respond500 (msg : String)
  | storeSessionCookie (isAuthorized : Bool)
  | clearVerifierCookie
  | respond403
  | redirectTo (url : String)
  | clearSessionCookie
deriving DecidableEq, Repr

/-- Inputs and oracles of one handleCallback invocation: the raw state
query parameter, the result of decoding it, the code query parameter,
the configured TokenValidation mode, the results of the code exchange
and of the token validation, the authorization decision on the
validated claims, the configured post-login redirect, and the
EnsureAbsoluteUrl resolution for the current request. -/
structure CallbackInput where
  stateParam : String
  decodeState : Except String OidcStateM
  codeParam : String
  tokenValidation : String
  exchangeResult : Except String TokenResponseM
  validationResult : Except String Claims
  authorized : Bool
  postLoginRedirectUri : String
  ensureAbsolute : String → String

/-- Embedding of handleCallback (lines 436-547 of the request handler
source).  Effects are collected in program order.  The source writes an
error for an unknown TokenValidation value but is missing a return
there, so it continues into validation; the embedding reproduces
that. -/
def handleCallback (inp : CallbackInput) : List CbEffect :=
  if inp.stateParam = "" then [CbEffect.respond500 "State is missing"]
  else
    match inp.decodeState with
    | Except.error _ => [CbEffect.respond500 "State is invalid"]
    | Except.ok st =>
      if st.action = "Login" then
        if inp.codeParam = "" then [CbEffect.respond500 "Code is missing"]
        else
          match inp.exchangeResult with
          | Except.error _ =>
              [CbEffect.exchangeCalled, CbEffect.respond500 "Failed to exchange auth code"]
          | Except.ok _ =>
            let selEffects : List CbEffect :=
              if inp.tokenValidation = "AccessToken" ∨ inp.tokenValidation = "IdToken" ∨
                 inp.tokenValidation = "Introspection" then []
              else [CbEffect.respond500 "invalid TokenValidation value"]
            match inp.validationResult with
            | Except.error _ =>
                CbEffect.exchangeCalled :: selEffects ++
                [CbEffect.validateCalled, CbEffect.respond500 "Returned token is not valid"]
            | Except.ok _ =>
              let ru :=
                if st.redirectUrl ≠ "" then inp.ensureAbsolute st.redirectUrl
                else inp.ensureAbsolute inp.postLoginRedirectUri
              CbEffect.exchangeCalled :: selEffects ++
              [CbEffect.validateCalled, CbEffect.storeSessionCookie inp.authorized,
               CbEffect.clearVerifierCookie] ++
              (if inp.authorized then [CbEffect.redirectTo ru] else [CbEffect.respond403])
      else if st.action = "Logout" then
        [CbEffect.clearSessionCookie, CbEffect.redirectTo st.redirectUrl]
      else [CbEffect.redirectTo st.redirectUrl]

/-- Request model for the orchestrator: RequestURI is the raw path plus
query string, path is the parsed URL path, host the Host header, tls
whether the connection carries TLS state, together with the parsed
cookie list and the remaining headers. -/
structure MRequest where
  requestUri : String
  path : String
  host : String
  xfProto : String
  xfHost : String
  tls : Bool
  cookies : List (String × String)
  otherHeaders : List (String × String)
deriving DecidableEq, Repr

/-- Configured callback URL, split into its components. -/
structure CallbackUrlM where
  scheme : String
  host : String
  path : String
deriving DecidableEq, Repr

/-- Embedding of utils.UrlIsAbsolute: nonempty scheme and host. -/
def urlIsAbsolute (u : CallbackUrlM) : Bool := u.scheme ≠ "" && u.host ≠ ""

/-- Embedding of utils.getSchemeFromRequest: X-Forwarded-Proto, else
https when TLS is present, else http. -/
def schemeFromRequest (r : MRequest) : String :=
  if r.xfProto ≠ "" then r.xfProto else if r.tls then "https" else "http"

/-- Host resolution used by utils.FillHostSchemeFromRequest:
X-Forwarded-Host, else the request host. -/
def hostFromRequest (r : MRequest) : String :=
  if r.xfHost ≠ "" then r.xfHost else r.host

/-- Embedding of isCallbackRequest (lines 117-132 of the request
handler source): exact path equality with the configured callback
path, and additionally scheme and host equality when the configured
callback URL is absolute.  FillHostSchemeFromRequest supplies the
request scheme and host compared against. -/
def isCallbackRequest (r : MRequest) (cb : CallbackUrlM) : Bool :=
  if r.path ≠ cb.path then false
  else if urlIsAbsolute cb then
    schemeFromRequest r = cb.scheme && hostFromRequest r = cb.host
  else true

/-- Configuration fields of the orchestrator used by the dispatch
logic.  cookieNamePfx is the CookieNamePrefix setting. -/
structure MConfig where
  loginUri : String
  logoutUri : String
  cookieNamePfx : String
  callback : CallbackUrlM
deriving DecidableEq, Repr

/-- Embedding of sanitizeForUpstream (lines 341-356 of the request
handler source): the Cookie header is rebuilt keeping exactly the
cookies whose name does not start with the configured cookie-name
prefix; nothing else of the request is touched. -/
def sanitizeForUpstream (cfg : MConfig) (r : MRequest) : MRequest :=
  { r with cookies := r.cookies.filter fun c => ! strHasPfx cfg.cookieNamePfx c.1 }

/-- Session as the orchestrator sees it after resolution. -/
structure MSession where
  id : String
  isAuthorized : Bool
deriving DecidableEq, Repr

/-- Oracle for the effectful calls of ServeHTTP: whether a bypass rule
is configured and matches, the discovery result, the resolved session
with its refresh flag (none models a resolution error), the
re-evaluated authorization for header- or cookie-backed external
sessions, the attachHeaders outcome and the headers it leaves on the
request. -/
structure ServeOracle where
  bypassRule : Option Bool
  discovery : Except String Unit
  session : Option MSession
  updateSession : Bool
  externalAuthz : Bool
  attachResult : Except String Unit
  attachedHeaders : List (String × String)

/-- Dispatch outcome of one ServeHTTP invocation.  forwarded carries
the request handed to the next handler. -/
inductive Outcome where
  | forwarded (r : MRequest)
  | errorResp (status : Nat)
  | callbackFlow
  | loginFlow
  | logoutFlow
  | unauthorized403
  | unauthenticated
deriving DecidableEq, Repr

/-- Embedding of ServeHTTP (lines 134-339 of the request handler
source): bypass rule, discovery, callback recognition, login prefix
dispatch, session resolution, logout prefix dispatch, external-session
re-authorization, the authorization gate, header attachment and the
sanitized forward.  Metrics and tracing calls have no effect on the
dispatch and are omitted.  attachHeaders mutates only non-cookie
headers (the configured upstream header names), modelled by replacing
otherHeaders with the oracle value. -/
def serveHTTP (cfg : MConfig) (o : ServeOracle) (req : MRequest) : Outcome :=
  if o.bypassRule = some true then
    Outcome.forwarded (sanitizeForUpstream cfg req)
  else
    match o.discovery with
    | Except.error _ => Outcome.errorResp 500
    | Except.ok _ =>
      if isCallbackRequest req cfg.callback then Outcome.callbackFlow
      else if cfg.loginUri ≠ "" && strHasPfx cfg.loginUri req.requestUri then
        Outcome.loginFlow
      else
        match o.session with
        | some s =>
          if strHasPfx cfg.logoutUri req.requestUri then Outcome.logoutFlow
          else
            let authz :=
              if s.id = "AuthorizationHeader" ∨ s.id = "AuthorizationCookie" then
                o.externalAuthz
              else s.isAuthorized
            if ¬ authz then Outcome.unauthorized403
            else
              match o.attachResult with
              | Except.error _ => Outcome.errorResp 500
              | Except.ok _ =>
                  Outcome.forwarded
                    (sanitizeForUpstream cfg { req with otherHeaders := o.attachedHeaders })
        | none => Outcome.unauthenticated

/-- Concrete 32-byte secret (32 times the byte a) for witnesses. -/
def secret32 : List Nat := List.replicate 32 97

/-- Request headers holding only X-Requested-With: XMLHttpRequest. -/
def xrwOnly : String → String :=
  fun n => if n = "X-Requested-With" then "XMLHttpRequest" else ""

/-- Request headers holding only Accept: application/json, text/html. -/
def acceptJsonHtml : String → String :=
  fun n => if n = "Accept" then "application/json, text/html" else ""

/-- Concrete validator oracle: initial load succeeds, both parses fail
with the expiration error, the forced reload succeeds. -/
def jwtOracleExample : JwtOracle :=
  ⟨Except.ok (), Except.ok (),
   Except.error ⟨true, "token has invalid claims: token is expired"⟩,
   Except.error ⟨true, "token has invalid claims: token is expired"⟩⟩

/-- Concrete callback input whose state parameter is present but does
not decode. -/
def cbBadStateExample : CallbackInput :=
  ⟨"notbase64", Except.error "invalid state", "", "AccessToken",
   Except.error "unused", Except.error "unused", false, "/", id⟩

/-- Concrete callback input for a Login callback whose exchange and
validation succeed while the claim assertions fail. -/
def cbUnauthorizedExample : CallbackInput :=
  ⟨"c3RhdGU=", Except.ok ⟨"Login", "/target"⟩, "authcode", "AccessToken",
   Except.ok ⟨"at", "it", "rt"⟩, Except.ok [("sub", "alice")], false, "/", id⟩

/-- Concrete orchestrator configuration for witnesses. -/
def serveCfgExample : MConfig :=
  ⟨"/oidc/login", "/logout", "TraefikOidcAuth", ⟨"", "", "/oidc/callback"⟩⟩

/-- Concrete request whose RequestURI strictly extends the login URI. -/
def loginExtendedReq : MRequest :=
  ⟨"/oidc/login/extra?redirect_uri=/x", "/oidc/login/extra", "app.example.com",
   "", "", false, [("TraefikOidcAuthSession", "v"), ("other", "w")], [("Accept", "text/html")]⟩

/-- Concrete request whose RequestURI strictly extends the logout URI. -/
def logoutExtendedReq : MRequest :=
  ⟨"/logout?post_logout_redirect_uri=/y", "/logout", "app.example.com",
   "", "", false, [], []⟩

/-- Concrete oracle: no bypass rule, discovery succeeds, an authorized
internal session resolves, header attachment succeeds. -/
def serveOracleExample : ServeOracle :=
  ⟨none, Except.ok (), some ⟨"sid", true⟩, false, false, Except.ok (),
   [("Authorization", "Bearer at")]⟩

/-- Concrete request for the forwarding witness: an ordinary protected
path carrying one internal and one foreign cookie. -/
def forwardReq : MRequest :=
  ⟨"/app", "/app", "app.example.com", "", "", false,
   [("TraefikOidcAuthSession", "v"), ("theme", "dark")], [("Accept", "text/html")]⟩

/-! Theorems.  Each claim of the specification gets one theorem named
after it, preceded by shared helper lemmas. -/

/-- C8: for every byte string s and every chunk size n greater than
zero, ChunkString splits s into chunks each of length at most n, and
concatenating the chunks in index order reproduces s exactly. -/
theorem chunkString_splits_and_reassembles (s : List Nat) (n : Nat) :
    0 < n → (∀ c ∈ ChunkString s n, c.length ≤ n) ∧ (ChunkString s n).flatten = s := by
  induction s, n using ChunkString.induct with
  | case1 n => intro h; simp [ChunkString]
  | case2 s hne => intro h; omega
  | case3 s n hne hz ih =>
    intro h
    rw [ChunkString]
    simp only [if_neg hne, if_neg hz]
    constructor
    · intro c hc
      rcases List.mem_cons.mp hc with hc | hc
      · subst hc
        simp [List.length_take]
      · exact (ih h).1 c hc
    · simp [List.flatten, (ih h).2]

/-- Witness for C8 at a concrete string and chunk size. -/
theorem chunkString_splits_and_reassembles_witness :
    0 < 2 ∧ ((∀ c ∈ ChunkString [10, 11, 12] 2, c.length ≤ 2) ∧
      (ChunkString [10, 11, 12] 2).flatten = [10, 11, 12]) :=
  ⟨by decide, chunkString_splits_and_reassembles [10, 11, 12] 2 (by decide)⟩

/-- The base64 alphabet inverts its digit function on six-bit values. -/
theorem b64idx_chr : ∀ v < 64, b64idx (b64chr v) = some v := by decide

/-- No base64 digit is the pad character. -/
theorem b64chr_ne_pad : ∀ v < 64, b64chr v ≠ 61 := by decide

/-- Decoding inverts encoding on byte sequences. -/
theorem b64_roundtrip : ∀ bs : List Nat, (∀ b ∈ bs, b < 256) →
    b64decode (b64encode bs) = some bs
  | [], _ => rfl
  | [a], h => by
      have ha : a < 256 := h a (by simp)
      have h1 : b64idx (b64chr (a / 4)) = some (a / 4) := b64idx_chr _ (by omega)
      have h2 : b64idx (b64chr (a % 4 * 16)) = some (a % 4 * 16) := b64idx_chr _ (by omega)
      simp [b64encode, b64decode, h1, h2]
      omega
  | [a, b], h => by
      have ha : a < 256 := h a (by simp)
      have hb : b < 256 := h b (by simp)
      have h1 : b64idx (b64chr (a / 4)) = some (a / 4) := b64idx_chr _ (by omega)
      have h2 : b64idx (b64chr (a % 4 * 16 + b / 16)) = some (a % 4 * 16 + b / 16) :=
        b64idx_chr _ (by omega)
      have h3 : b64idx (b64chr (b % 16 * 4)) = some (b % 16 * 4) := b64idx_chr _ (by omega)
      have hne3 : b64chr (b % 16 * 4) ≠ 61 := b64chr_ne_pad _ (by omega)
      simp [b64encode, b64decode, h1, h2, h3, hne3]
      omega
  | a :: b :: c :: rest, h => by
      have ha : a < 256 := h a (by simp)
      have hb : b < 256 := h b (by simp)
      have hc : c < 256 := h c (by simp)
      have hrest : ∀ x ∈ rest, x < 256 := fun x hx => h x (by simp [hx])
      have ih := b64_roundtrip rest hrest
      have h1 : b64idx (b64chr (a / 4)) = some (a / 4) := b64idx_chr _ (by omega)
      have h2 : b64idx (b64chr (a % 4 * 16 + b / 16)) = some (a % 4 * 16 + b / 16) :=
        b64idx_chr _ (by omega)
      have h3 : b64idx (b64chr (b % 16 * 4 + c / 64)) = some (b % 16 * 4 + c / 64) :=
        b64idx_chr _ (by omega)
      have h4 : b64idx (b64chr (c % 64)) = some (c % 64) := b64idx_chr _ (by omega)
      have hne3 : b64chr (b % 16 * 4 + c / 64) ≠ 61 := b64chr_ne_pad _ (by omega)
      have hne4 : b64chr (c % 64) ≠ 61 := b64chr_ne_pad _ (by omega)
      simp [b64encode, b64decode, h1, h2, h3, h4, hne3, hne4, ih]
      refine ⟨by omega, by omega, by omega⟩

/-- Encoding a nonempty byte sequence yields a nonempty string. -/
theorem b64encode_ne_nil (a : Nat) (rest : List Nat) : b64encode (a :: rest) ≠ [] := by
  cases rest with
  | nil => simp [b64encode]
  | cons b r => cases r <;> simp [b64encode]

/-- Masking preserves length. -/
theorem maskBytes_length (ks : Nat → Nat) : ∀ i bs, (maskBytes ks i bs).length = bs.length
  | _, [] => rfl
  | i, b :: bs => by simp [maskBytes, maskBytes_length ks (i + 1) bs]

/-- Masking twice with the same keystream restores the input. -/
theorem maskBytes_involutive (ks : Nat → Nat) :
    ∀ i bs, maskBytes ks i (maskBytes ks i bs) = bs
  | _, [] => rfl
  | i, b :: bs => by
      simp [maskBytes, maskBytes_involutive ks (i + 1) bs, Nat.xor_cancel_right]

/-- Masking keeps bytes below 256 when the keystream does. -/
theorem maskBytes_lt (ks : Nat → Nat) (hks : ∀ j, ks j < 256) :
    ∀ i bs, (∀ b ∈ bs, b < 256) → ∀ x ∈ maskBytes ks i bs, x < 256
  | _, [], _ => by simp [maskBytes]
  | i, b :: bs, h => by
      simp only [maskBytes, List.mem_cons]
      rintro x (rfl | hx)
      · have hb : b < 256 := h b (by simp)
        have h8 : (256 : Nat) = 2 ^ 8 := by norm_num
        rw [h8] at hb ⊢
        exact Nat.xor_lt_two_pow hb (by rw [← h8]; exact hks i)
      · exact maskBytes_lt ks hks (i + 1) bs (fun y hy => h y (by simp [hy])) x hx

/-- The tag has the GCM tag size. -/
theorem gcmTag_length (key nonce body : List Nat) : (gcmTag key nonce body).length = 16 := by
  simp [gcmTag]

/-- Tag bytes stay below 256. -/
theorem gcmTag_lt (key nonce body : List Nat) : ∀ x ∈ gcmTag key nonce body, x < 256 := by
  intro x hx
  simp [gcmTag] at hx
  obtain ⟨i, _, rfl⟩ := hx
  exact Nat.mod_lt _ (by norm_num)

/-- Open inverts Seal under the same key and nonce. -/
theorem gcmOpen_gcmSeal (key nonce pt : List Nat) :
    gcmOpen key nonce (gcmSeal key nonce pt) = some pt := by
  unfold gcmOpen gcmSeal
  have hlen : (maskBytes (ksByte key nonce) 0 pt ++
      gcmTag key nonce (maskBytes (ksByte key nonce) 0 pt)).length = pt.length + 16 := by
    simp [maskBytes_length, gcmTag_length]
  rw [hlen]
  have hsub : pt.length + 16 - 16 = (maskBytes (ksByte key nonce) 0 pt).length := by
    simp [maskBytes_length]
  rw [if_neg (by omega), hsub, List.take_left, List.drop_left, if_pos rfl,
    maskBytes_involutive]

/-- Sealed bytes stay below 256 when the plaintext bytes do. -/
theorem gcmSeal_lt (key nonce pt : List Nat) (hpt : ∀ b ∈ pt, b < 256) :
    ∀ b ∈ gcmSeal key nonce pt, b < 256 := by
  intro b hb
  unfold gcmSeal at hb
  rcases List.mem_append.mp hb with hb | hb
  · exact maskBytes_lt _ (fun j => Nat.mod_lt _ (by norm_num)) 0 pt hpt b hb
  · exact gcmTag_lt _ _ _ b hb

/-- C1: for every plaintext, every 32-byte secret and every 12-byte
nonce drawn for the encryption, Encrypt succeeds and Decrypt of its
output under the same secret returns exactly the plaintext. -/
theorem encrypt_decrypt_roundtrip (pt secret nonce : List Nat)
    (hsec : secret.length = 32) (hnl : nonce.length = gcmNonceSize)
    (hnb : ∀ b ∈ nonce, b < 256) (hpb : ∀ b ∈ pt, b < 256) :
    ∃ ct, Encrypt pt secret nonce = GoResult.ok ct ∧
      Decrypt ct secret = GoResult.ok pt := by
  have hkey : validAesKeySize secret.length = true := by simp [validAesKeySize, hsec]
  refine ⟨b64encode (nonce ++ gcmSeal secret nonce pt), by simp [Encrypt, hkey], ?_⟩
  have hbounds : ∀ b ∈ nonce ++ gcmSeal secret nonce pt, b < 256 := by
    intro b hb
    rcases List.mem_append.mp hb with hb | hb
    · exact hnb b hb
    · exact gcmSeal_lt secret nonce pt hpb b hb
  have hdec := b64_roundtrip (nonce ++ gcmSeal secret nonce pt) hbounds
  have hne : b64encode (nonce ++ gcmSeal secret nonce pt) ≠ [] := by
    cases nonce with
    | nil => simp [gcmNonceSize] at hnl
    | cons a t => exact b64encode_ne_nil a (t ++ gcmSeal secret (a :: t) pt)
  have hlen : (nonce ++ gcmSeal secret nonce pt).length =
      gcmNonceSize + (pt.length + 16) := by
    simp [gcmSeal, maskBytes_length, gcmTag_length, hnl]
  have htake : (nonce ++ gcmSeal secret nonce pt).take gcmNonceSize = nonce := by
    rw [← hnl]; exact List.take_left nonce _
  have hdrop : (nonce ++ gcmSeal secret nonce pt).drop gcmNonceSize =
      gcmSeal secret nonce pt := by
    rw [← hnl]; exact List.drop_left nonce _
  unfold Decrypt
  rw [if_neg hne]
  simp only [hdec]
  rw [if_pos hkey, hlen]
  rw [if_neg (by simp only [gcmNonceSize]; omega)]
  simp only [htake, hdrop, gcmOpen_gcmSeal]

/-- Witness for C1 at concrete plaintext, secret and nonce. -/
theorem encrypt_decrypt_roundtrip_witness :
    (secret32.length = 32 ∧ (List.replicate 12 7).length = gcmNonceSize ∧
     (∀ b ∈ List.replicate 12 7, b < 256) ∧ (∀ b ∈ [104, 105], b < 256)) ∧
    ∃ ct, Encrypt [104, 105] secret32 (List.replicate 12 7) = GoResult.ok ct ∧
      Decrypt ct secret32 = GoResult.ok [104, 105] :=
  ⟨⟨by decide, by decide, by decide, by decide⟩,
   encrypt_decrypt_roundtrip [104, 105] secret32 (List.replicate 12 7)
     (by decide) (by decide) (by decide) (by decide)⟩

/-- C2: Decrypt of the empty string is a defined error, but Decrypt is
not total: the four-character ciphertext QQ equals equals (bytes
81 81 61 61) base64-decodes to the single byte 65, which is shorter
than the twelve byte nonce, and the unguarded slice
ciphertext[:nonceSize] in the source is a runtime panic there. -/
theorem decrypt_short_input_panics :
    Decrypt [] secret32 = GoResult.err "ciphertext must not be an empty string" ∧
    b64decode [81, 81, 61, 61] = some [65] ∧
    Decrypt [81, 81, 61, 61] secret32 = GoResult.panicked := by decide

/-- Inversion: an empty template only matches the empty value. -/
theorem specMatch_nil_inv {vs : List Char} (h : SpecMatch [] vs) : vs = [] := by
  cases h; rfl

/-- Inversion: a nonempty template never matches the empty value. -/
theorem specMatch_cons_nil_inv {t : Char} {ts : List Char}
    (h : SpecMatch (t :: ts) []) : False := by
  have h2 : ∀ ts0 vs0, SpecMatch ts0 vs0 → ts0 = t :: ts → vs0 = [] → False := by
    intro ts0 vs0 hm
    cases hm with
    | nil => intro hts _; cases hts
    | lit hne hrest => intro _ hv; cases hv
    | star w hne hall hrest =>
        intro _ hvs
        exact hne (List.append_eq_nil.mp hvs).1
  exact h2 _ _ h rfl rfl

/-- Inversion of the star rule. -/
theorem specMatch_star_inv {ts vs : List Char} (h : SpecMatch ('*' :: ts) vs) :
    ∃ w vs2, vs = w ++ vs2 ∧ w ≠ [] ∧ (∀ c ∈ w, isWordChar c = true) ∧
      SpecMatch ts vs2 := by
  cases h with
  | lit hne _ => exact absurd rfl hne
  | star w hne hall hrest => exact ⟨w, _, rfl, hne, hall, hrest⟩

/-- Inversion of the literal rule. -/
theorem specMatch_lit_inv {t : Char} {ts vs : List Char} (hne : t ≠ '*')
    (h : SpecMatch (t :: ts) vs) : ∃ vs2, vs = t :: vs2 ∧ SpecMatch ts vs2 := by
  cases h with
  | lit _ h2 => exact ⟨_, rfl, h2⟩
  | star w hw hall hrest => exact absurd rfl hne

/-- A wildcard segment absorbs one more word character on its left. -/
theorem specMatch_star_cons {v : Char} {ts vs : List Char}
    (hw : isWordChar v = true) (h : SpecMatch ('*' :: ts) vs) :
    SpecMatch ('*' :: ts) (v :: vs) := by
  obtain ⟨w, vs2, rfl, hne, hall, hrest⟩ := specMatch_star_inv h
  have hstep := @SpecMatch.star ts vs2 (v :: w) (by simp)
    (by intro c hc
        rcases List.mem_cons.mp hc with rfl | hc
        · exact hw
        · exact hall c hc) hrest
  simpa using hstep

/-- The executable matcher from the source agrees with the declarative
wildcard-decomposition relation written from the claim. -/
theorem matchTpl_iff_specMatch : ∀ vs ts, matchTpl ts vs = true ↔ SpecMatch ts vs := by
  intro vs
  induction vs with
  | nil =>
    intro ts
    cases ts with
    | nil =>
      constructor
      · intro _; exact SpecMatch.nil
      · intro _; simp [matchTpl]
    | cons t ts =>
      constructor
      · intro h; simp [matchTpl] at h
      · intro h; exact absurd h specMatch_cons_nil_inv
  | cons v vs ih =>
    intro ts
    cases ts with
    | nil =>
      constructor
      · intro h; simp [matchTpl] at h
      · intro h; exact absurd (specMatch_nil_inv h) (by simp)
    | cons t ts =>
      by_cases ht : t = '*'
      · subst ht
        rw [matchTpl, if_pos rfl]
        constructor
        · intro h
          simp only [Bool.and_eq_true, Bool.or_eq_true] at h
          obtain ⟨hw, h1 | h2⟩ := h
          · have hm := (ih ts).mp h1
            have hstep := @SpecMatch.star ts vs [v] (by simp)
              (by intro c hc; simp at hc; subst hc; exact hw) hm
            simpa using hstep
          · exact specMatch_star_cons hw ((ih ('*' :: ts)).mp h2)
        · intro h
          obtain ⟨w, vs2, heq, hne, hall, hrest⟩ := specMatch_star_inv h
          cases w with
          | nil => exact absurd rfl hne
          | cons c w1 =>
            simp only [List.cons_append, List.cons.injEq] at heq
            obtain ⟨rfl, hvs⟩ := heq
            have hwc : isWordChar v = true := hall v (by simp)
            simp only [hwc, Bool.true_and, Bool.or_eq_true]
            cases w1 with
            | nil =>
              left
              have hvs2 : vs = vs2 := by simpa using hvs
              subst hvs2
              exact (ih ts).mpr hrest
            | cons c2 w2 =>
              right
              apply (ih ('*' :: ts)).mpr
              rw [hvs]
              exact SpecMatch.star (c2 :: w2) (by simp)
                (fun c hc => hall c (List.mem_cons_of_mem _ hc)) hrest
      · rw [matchTpl, if_neg ht]
        constructor
        · intro h
          simp only [Bool.and_eq_true] at h
          obtain ⟨hv, hm⟩ := h
          have hveq : t = v := by simpa using hv
          subst hveq
          exact SpecMatch.lit ht ((ih ts).mp hm)
        · intro h
          obtain ⟨vs2, heq, hrest⟩ := specMatch_lit_inv ht h
          simp only [List.cons.injEq] at heq
          obtain ⟨rfl, rfl⟩ := heq
          simp [(ih ts).mpr hrest]

/-- A template matches a value exactly when it is equal to it, is the
universal wildcard, or matches it by wildcard decomposition. -/
theorem matchUriTemplate_iff (value template : String) :
    matchUriTemplate value template = true ↔
      value = template ∨ template = "*" ∨ SpecMatch template.toList value.toList := by
  unfold matchUriTemplate
  simp [Bool.or_eq_true, decide_eq_true_eq, matchTpl_iff_specMatch, or_assoc]

/-- C4: ValidateRedirectUri returns the candidate unchanged exactly
when some allow-list template equals it, is the universal wildcard, or
matches it with every star standing for one nonempty [a-zA-Z0-9-_]
segment; the empty candidate yields an empty result without error, any
other non-match yields an error; and the two concrete examples of the
specification hold. -/
theorem validateRedirectUri_spec :
    (∀ uris : List String, ValidateRedirectUri "" uris = Except.ok "") ∧
    (∀ (uri : String) (uris : List String), uri ≠ "" →
      (ValidateRedirectUri uri uris = Except.ok uri ↔
        ∃ t ∈ uris, uri = t ∨ t = "*" ∨ SpecMatch t.toList uri.toList)) ∧
    (∀ (uri : String) (uris : List String), uri ≠ "" →
      (¬ ∃ t ∈ uris, uri = t ∨ t = "*" ∨ SpecMatch t.toList uri.toList) →
      ValidateRedirectUri uri uris = Except.error "invalid redirect uri") ∧
    matchUriTemplate "https://app.something.com/good" "https://*.something.com/good" = true ∧
    matchUriTemplate "https://app.something.com/bad" "https://*.something.com/good" = false := by
  have hiff : ∀ (uri : String) (uris : List String),
      (uris.any fun t => matchUriTemplate uri t) = true ↔
        ∃ t ∈ uris, uri = t ∨ t = "*" ∨ SpecMatch t.toList uri.toList := by
    intro uri uris
    rw [List.any_eq_true]
    constructor
    · rintro ⟨t, ht, hm⟩
      exact ⟨t, ht, (matchUriTemplate_iff uri t).mp hm⟩
    · rintro ⟨t, ht, hm⟩
      exact ⟨t, ht, (matchUriTemplate_iff uri t).mpr hm⟩
  refine ⟨fun uris => by simp [ValidateRedirectUri], ?_, ?_, by decide, by decide⟩
  · intro uri uris huri
    unfold ValidateRedirectUri
    rw [if_neg huri]
    by_cases h : (uris.any fun t => matchUriTemplate uri t) = true
    · simp only [h, if_true]
      constructor
      · intro _; exact (hiff uri uris).mp h
      · intro _; trivial
    · simp only [h, if_false]
      constructor
      · intro hc; cases hc
      · intro hc; exact absurd ((hiff uri uris).mpr hc) h
  · intro uri uris huri hn
    unfold ValidateRedirectUri
    rw [if_neg huri, if_neg (fun hany => hn ((hiff uri uris).mp hany))]

/-- Witness for C4: the empty candidate passes without error, and the
wildcard example accepted by ValidateRedirectUri is certified by the
declarative relation. -/
theorem validateRedirectUri_spec_witness :
    ValidateRedirectUri "" [] = Except.ok "" ∧
    ∃ t ∈ ["https://*.something.com/good"],
      "https://app.something.com/good" = t ∨ t = "*" ∨
        SpecMatch t.toList "https://app.something.com/good".toList :=
  ⟨validateRedirectUri_spec.1 [],
   (validateRedirectUri_spec.2.1 "https://app.something.com/good"
      ["https://*.something.com/good"] (by decide)).mp (by rfl)⟩

/-- The X-Requested-With entry of the default set reduces to a
case-insensitive substring test. -/
theorem detectEntry_xrw (get : String → String) :
    detectEntry get ("X-Requested-With", ["XMLHttpRequest"]) =
      containsStr (toLowerAscii (get "X-Requested-With")) "xmlhttprequest" := by
  unfold detectEntry
  by_cases h : get ("X-Requested-With", ["XMLHttpRequest"]).1 = ""
  · rw [if_pos h]
    rw [show get ("X-Requested-With", ["XMLHttpRequest"]).1 = get "X-Requested-With" from rfl] at h
    rw [h]
    decide
  · rw [if_neg h]
    rw [show get ("X-Requested-With", ["XMLHttpRequest"]).1 = get "X-Requested-With" from rfl] at h ⊢
    have he : eqFold "X-Requested-With" "Accept" = false := by decide
    rw [if_neg (by simp [he])]
    have hl : toLowerAscii "XMLHttpRequest" = "xmlhttprequest" := by decide
    simp [hl]

/-- The Sec-Fetch-Mode entry of the default set reduces to two
case-insensitive substring tests. -/
theorem detectEntry_sfm (get : String → String) :
    detectEntry get ("Sec-Fetch-Mode", ["cors", "same-origin"]) =
      (containsStr (toLowerAscii (get "Sec-Fetch-Mode")) "cors" ||
       containsStr (toLowerAscii (get "Sec-Fetch-Mode")) "same-origin") := by
  unfold detectEntry
  by_cases h : get ("Sec-Fetch-Mode", ["cors", "same-origin"]).1 = ""
  · rw [if_pos h]
    rw [show get ("Sec-Fetch-Mode", ["cors", "same-origin"]).1 = get "Sec-Fetch-Mode" from
      rfl] at h
    rw [h]
    decide
  · rw [if_neg h]
    rw [show get ("Sec-Fetch-Mode", ["cors", "same-origin"]).1 = get "Sec-Fetch-Mode" from
      rfl] at h ⊢
    have he : eqFold "Sec-Fetch-Mode" "Accept" = false := by decide
    rw [if_neg (by simp [he])]
    have hl1 : toLowerAscii "cors" = "cors" := by decide
    have hl2 : toLowerAscii "same-origin" = "same-origin" := by decide
    simp [hl1, hl2]

/-- The Content-Type entry of the default set reduces to a
case-insensitive substring test. -/
theorem detectEntry_ct (get : String → String) :
    detectEntry get ("Content-Type", ["application/json"]) =
      containsStr (toLowerAscii (get "Content-Type")) "application/json" := by
  unfold detectEntry
  by_cases h : get ("Content-Type", ["application/json"]).1 = ""
  · rw [if_pos h]
    rw [show get ("Content-Type", ["application/json"]).1 = get "Content-Type" from rfl] at h
    rw [h]
    decide
  · rw [if_neg h]
    rw [show get ("Content-Type", ["application/json"]).1 = get "Content-Type" from rfl] at h ⊢
    have he : eqFold "Content-Type" "Accept" = false := by decide
    rw [if_neg (by simp [he])]
    have hl : toLowerAscii "application/json" = "application/json" := by decide
    simp [hl]

/-- C5 counterexample: under the default detection header set, a
request carrying only Accept: application/json is not classified as
programmatic (the Accept header is not among the default detection
headers), contradicting the claim. -/
theorem isXHR_default_accept_json_not_programmatic :
    IsXHRRequestWithHeaders acceptJsonOnly (some defaultJsDetectionHeaders) = false := by
  decide

/-- C5 amended: under the default JavaScript-request-detection set the
classifier returns programmatic exactly when X-Requested-With contains
XMLHttpRequest, Sec-Fetch-Mode contains cors or same-origin, or
Content-Type contains application/json, case-insensitively; the Accept
header never contributes under the default set, so a request with only
Accept: application/json is not programmatic (it is programmatic only
in the legacy mode with no configured headers), and a request with
Accept: application/json, text/html is not programmatic either; a
request with only X-Requested-With: XMLHttpRequest is programmatic. -/
theorem isXHR_default_characterization :
    (∀ get : String → String,
      IsXHRRequestWithHeaders get (some defaultJsDetectionHeaders) =
        (containsStr (toLowerAscii (get "X-Requested-With")) "xmlhttprequest" ||
         containsStr (toLowerAscii (get "Sec-Fetch-Mode")) "cors" ||
         containsStr (toLowerAscii (get "Sec-Fetch-Mode")) "same-origin" ||
         containsStr (toLowerAscii (get "Content-Type")) "application/json")) ∧
    IsXHRRequestWithHeaders xrwOnly (some defaultJsDetectionHeaders) = true ∧
    IsXHRRequestWithHeaders acceptJsonHtml (some defaultJsDetectionHeaders) = false ∧
    IsXHRRequestWithHeaders acceptJsonOnly (some defaultJsDetectionHeaders) = false ∧
    IsXHRRequestWithHeaders acceptJsonOnly none = true ∧
    IsXHRRequestWithHeaders acceptJsonHtml none = false := by
  refine ⟨?_, by decide, by decide, by decide, by decide, by decide⟩
  intro get
  show (defaultJsDetectionHeaders.any (detectEntry get)) = _
  simp only [defaultJsDetectionHeaders, List.any_cons, List.any_nil,
    detectEntry_xrw, detectEntry_sfm, detectEntry_ct, Bool.or_false, Bool.or_assoc]

/-- C3: in local JWT validation the forced JWKS reload happens exactly
once after a first parse failure and never otherwise, the parse is
retried exactly once when the reload succeeds, a validation call never
makes more than one forced reload or two parse attempts, and a failing
retry returns the parse error classified as expired exactly when the
failure is the expiration error, otherwise invalid. -/
theorem validateTokenLocally_retry_spec (o : JwtOracle) :
    ((validateTokenLocally o).loadCalls.count true ≤ 1) ∧
    ((validateTokenLocally o).parseAttempts ≤ 2) ∧
    (∀ c, o.loadResult = Except.ok () → o.parse1 = Except.ok c →
      (validateTokenLocally o).loadCalls = [false] ∧
      (validateTokenLocally o).parseAttempts = 1) ∧
    (∀ e1, o.loadResult = Except.ok () → o.parse1 = Except.error e1 →
      (validateTokenLocally o).loadCalls = [false, true]) ∧
    (∀ e1, o.loadResult = Except.ok () → o.parse1 = Except.error e1 →
      o.forceLoadResult = Except.ok () →
      (validateTokenLocally o).parseAttempts = 2) ∧
    (∀ e1 e2, o.loadResult = Except.ok () → o.parse1 = Except.error e1 →
      o.forceLoadResult = Except.ok () → o.parse2 = Except.error e2 →
      (validateTokenLocally o).result = Except.error (ValidationErr.parseErr e2) ∧
      (validateTokenLocally o).classification =
        some (if e2.isExpired then TokenClass.expired else TokenClass.invalid)) := by
  obtain ⟨lr, flr, p1, p2⟩ := o
  cases lr with
  | error e => simp [validateTokenLocally]
  | ok u =>
    cases u
    cases p1 with
    | ok c => simp [validateTokenLocally]
    | error e1 =>
      cases flr with
      | error e => simp [validateTokenLocally]
      | ok u2 =>
        cases u2
        cases p2 with
        | ok c => simp [validateTokenLocally]
        | error e2 => simp [validateTokenLocally]

/-- Witness for C3 at a concrete oracle whose two parses fail with the
expiration error. -/
theorem validateTokenLocally_retry_spec_witness :
    (validateTokenLocally jwtOracleExample).loadCalls = [false, true] ∧
    (validateTokenLocally jwtOracleExample).parseAttempts = 2 ∧
    (validateTokenLocally jwtOracleExample).classification = some TokenClass.expired := by
  have h := validateTokenLocally_retry_spec jwtOracleExample
  refine ⟨h.2.2.2.1 _ rfl rfl, h.2.2.2.2.1 _ rfl rfl rfl, ?_⟩
  have h2 := (h.2.2.2.2.2 _ _ rfl rfl rfl rfl).2
  simpa using h2

/-- C6: a callback request whose state parameter is missing or fails
to decode is answered with a single 500 error response, with no token
exchange, no session store and no redirect. -/
theorem handleCallback_bad_state (inp : CallbackInput) :
    (inp.stateParam = "" →
      handleCallback inp = [CbEffect.respond500 "State is missing"]) ∧
    (∀ e, inp.stateParam ≠ "" → inp.decodeState = Except.error e →
      handleCallback inp = [CbEffect.respond500 "State is invalid"]) ∧
    ((inp.stateParam = "" ∨ ∃ e, inp.decodeState = Except.error e) →
      CbEffect.exchangeCalled ∉ handleCallback inp ∧
      (∀ b, CbEffect.storeSessionCookie b ∉ handleCallback inp) ∧
      (∀ u, CbEffect.redirectTo u ∉ handleCallback inp)) := by
  refine ⟨?_, ?_, ?_⟩
  · intro h
    simp [handleCallback, h]
  · intro e hne hdec
    simp [handleCallback, hne, hdec]
  · intro hbad
    by_cases h : inp.stateParam = ""
    · simp [handleCallback, h]
    · rcases hbad with hbad | ⟨e, hdec⟩
      · exact absurd hbad h
      · simp [handleCallback, h, hdec]

/-- Witness for C6 at a concrete callback input with an undecodable
state parameter. -/
theorem handleCallback_bad_state_witness :
    handleCallback cbBadStateExample = [CbEffect.respond500 "State is invalid"] ∧
    CbEffect.exchangeCalled ∉ handleCallback cbBadStateExample :=
  ⟨(handleCallback_bad_state cbBadStateExample).2.1 "invalid state" (by decide) rfl,
   ((handleCallback_bad_state cbBadStateExample).2.2
      (Or.inr ⟨"invalid state", rfl⟩)).1⟩

/-- C9: on a Login callback whose code exchange and token validation
succeed while the claim assertions fail, the handler still stores the
new session with IsAuthorized false and emits the session cookie and
the PKCE-verifier-clearing cookie, in that order, before the 403
unauthorized response; no redirect is issued. -/
theorem handleCallback_unauthorized_sets_cookies (inp : CallbackInput)
    (st : OidcStateM) (tok : TokenResponseM) (claims : Claims)
    (h1 : inp.stateParam ≠ "") (h2 : inp.decodeState = Except.ok st)
    (h3 : st.action = "Login") (h4 : inp.codeParam ≠ "")
    (h5 : inp.exchangeResult = Except.ok tok)
    (h6 : inp.tokenValidation = "AccessToken" ∨ inp.tokenValidation = "IdToken" ∨
      inp.tokenValidation = "Introspection")
    (h7 : inp.validationResult = Except.ok claims)
    (h8 : inp.authorized = false) :
    handleCallback inp =
      [CbEffect.exchangeCalled, CbEffect.validateCalled,
       CbEffect.storeSessionCookie false, CbEffect.clearVerifierCookie,
       CbEffect.respond403] := by
  simp [handleCallback, h1, h2, h3, h4, h5, h6, h7, h8]

/-- Witness for C9 at a concrete unauthorized Login callback. -/
theorem handleCallback_unauthorized_sets_cookies_witness :
    handleCallback cbUnauthorizedExample =
      [CbEffect.exchangeCalled, CbEffect.validateCalled,
       CbEffect.storeSessionCookie false, CbEffect.clearVerifierCookie,
       CbEffect.respond403] :=
  handleCallback_unauthorized_sets_cookies cbUnauthorizedExample
    ⟨"Login", "/target"⟩ ⟨"at", "it", "rt"⟩ [("sub", "alice")]
    (by decide) rfl rfl (by decide) rfl (Or.inl rfl) rfl rfl

/-- C7: whenever ServeHTTP forwards a request upstream, via a matched
bypass rule or as an authenticated request, the forwarded request
keeps exactly the cookies whose name does not start with the
configured cookie-name prefix, every prefixed cookie is removed, and
the sanitization step touches no other request field. -/
theorem serveHTTP_forward_sanitizes (cfg : MConfig) (o : ServeOracle)
    (req fr : MRequest) (h : serveHTTP cfg o req = Outcome.forwarded fr) :
    fr.cookies = req.cookies.filter (fun c => ! strHasPfx cfg.cookieNamePfx c.1) ∧
    (∀ c ∈ req.cookies, strHasPfx cfg.cookieNamePfx c.1 = true → c ∉ fr.cookies) ∧
    (∀ c ∈ req.cookies, strHasPfx cfg.cookieNamePfx c.1 = false → c ∈ fr.cookies) ∧
    (∀ r : MRequest, (sanitizeForUpstream cfg r).requestUri = r.requestUri ∧
      (sanitizeForUpstream cfg r).path = r.path ∧
      (sanitizeForUpstream cfg r).host = r.host ∧
      (sanitizeForUpstream cfg r).xfProto = r.xfProto ∧
      (sanitizeForUpstream cfg r).xfHost = r.xfHost ∧
      (sanitizeForUpstream cfg r).tls = r.tls ∧
      (sanitizeForUpstream cfg r).otherHeaders = r.otherHeaders) := by
  have hcook : fr.cookies =
      req.cookies.filter (fun c => ! strHasPfx cfg.cookieNamePfx c.1) := by
    unfold serveHTTP at h
    repeat' split at h
    all_goals try simp only [] at h
    all_goals try split at h
    all_goals
      first
      | (cases h; simp [sanitizeForUpstream])
      | (exact absurd h (by simp))
  refine ⟨hcook, ?_, ?_, fun r => ⟨rfl, rfl, rfl, rfl, rfl, rfl, rfl⟩⟩
  · intro c hc hpfx hmem
    rw [hcook] at hmem
    have hkeep := (List.mem_filter.mp hmem).2
    simp [hpfx] at hkeep
  · intro c hc hpfx
    rw [hcook]
    exact List.mem_filter.mpr ⟨hc, by simp [hpfx]⟩

/-- Witness for C7: the authenticated-forward branch at concrete
configuration, oracle and request strips exactly the prefixed
cookie. -/
theorem serveHTTP_forward_sanitizes_witness :
    (MRequest.cookies ⟨"/app", "/app", "app.example.com", "", "", false,
        [("theme", "dark")], [("Authorization", "Bearer at")]⟩) =
      forwardReq.cookies.filter
        (fun c => ! strHasPfx serveCfgExample.cookieNamePfx c.1) :=
  (serveHTTP_forward_sanitizes serveCfgExample serveOracleExample forwardReq
    ⟨"/app", "/app", "app.example.com", "", "", false,
      [("theme", "dark")], [("Authorization", "Bearer at")]⟩ (by decide)).1

/-- C10: the login and logout sub-flows are selected by string-prefix
match of the configured URI against the raw RequestURI, so any request
whose RequestURI extends the configured URI triggers the sub-flow once
the dispatch reaches that test, while callback recognition demands
exact path equality, plus scheme and host equality when the configured
callback URL is absolute. -/
theorem dispatch_prefix_vs_exact :
    (∀ (cfg : MConfig) (o : ServeOracle) (req : MRequest),
      o.bypassRule ≠ some true → o.discovery = Except.ok () →
      isCallbackRequest req cfg.callback = false →
      cfg.loginUri ≠ "" → strHasPfx cfg.loginUri req.requestUri = true →
      serveHTTP cfg o req = Outcome.loginFlow) ∧
    (∀ (cfg : MConfig) (o : ServeOracle) (req : MRequest) (s : MSession),
      o.bypassRule ≠ some true → o.discovery = Except.ok () →
      isCallbackRequest req cfg.callback = false →
      (cfg.loginUri = "" ∨ strHasPfx cfg.loginUri req.requestUri = false) →
      o.session = some s →
      strHasPfx cfg.logoutUri req.requestUri = true →
      serveHTTP cfg o req = Outcome.logoutFlow) ∧
    (∀ (req : MRequest) (cb : CallbackUrlM),
      isCallbackRequest req cb = true ↔
        (req.path = cb.path ∧ (urlIsAbsolute cb = true →
          schemeFromRequest req = cb.scheme ∧ hostFromRequest req = cb.host))) := by
  refine ⟨?_, ?_, ?_⟩
  · intro cfg o req hb hd hcb hlu hpfx
    unfold serveHTTP
    rw [if_neg hb, hd]
    simp [hcb, hlu, hpfx]
  · intro cfg o req s hb hd hcb hnl hs hpfx
    unfold serveHTTP
    rw [if_neg hb, hd]
    rcases hnl with hnl | hnl
    · simp [hcb, hnl, hs, hpfx]
    · simp [hcb, hnl, hs, hpfx]
  · intro req cb
    unfold isCallbackRequest
    by_cases hp : req.path = cb.path
    · by_cases ha : urlIsAbsolute cb = true
      · simp [hp, ha]
      · simp [hp, ha]
    · simp [hp]

/-- Witness for C10: a RequestURI strictly extending the login URI
triggers the login flow, one strictly extending the logout URI
triggers the logout flow, and the configured relative callback is
recognized only by exact path equality. -/
theorem dispatch_prefix_vs_exact_witness :
    serveHTTP serveCfgExample serveOracleExample loginExtendedReq = Outcome.loginFlow ∧
    serveHTTP serveCfgExample serveOracleExample logoutExtendedReq = Outcome.logoutFlow ∧
    (isCallbackRequest loginExtendedReq serveCfgExample.callback = true ↔
      (loginExtendedReq.path = serveCfgExample.callback.path ∧
        (urlIsAbsolute serveCfgExample.callback = true →
          schemeFromRequest loginExtendedReq = serveCfgExample.callback.scheme ∧
          hostFromRequest loginExtendedReq = serveCfgExample.callback.host))) :=
  ⟨dispatch_prefix_vs_exact.1 serveCfgExample serveOracleExample loginExtendedReq
     (by decide) rfl (by decide) (by decide) (by decide),
   dispatch_prefix_vs_exact.2.1 serveCfgExample serveOracleExample logoutExtendedReq
     ⟨"sid", true⟩ (by decide) rfl (by decide) (Or.inr (by decide)) rfl (by decide),
   dispatch_prefix_vs_exact.2.2 loginExtendedReq serveCfgExample.callback⟩

end OidcAuth
